import Mathlib

/-!
Shallow embedding of `crates/hir/src/display.rs` (rust-analyzer's `HirDisplay`
implementations for HIR declarations): declaration renderers, the
generic-parameter-list renderer `write_generic_params`, and the where-clause
renderer `write_where_clause`.

The renderers are modelled as pure functions from declaration metadata to
`String` (the formatter sink is write-only; sink failures are orthogonal and
not modelled).  Rust `panic!`/`unwrap` branches are modelled by returning
`Option.none`.  External collaborators (the type-expression formatter and the
visibility writer) are parameters: the type/bound formatters are fields of a
`Ctx`, and visibility is carried as an already-rendered string on each
declaration record.
-/

namespace HirDisplay

/-- Modelled from the spec: `hir_def::type_ref::Mutability`. -/
inductive Mutability : Type where
  | Shared : Mutability
  | Mut : Mutability
deriving DecidableEq, Repr

/-- Modelled from the spec: `hir_def::path::ImportAlias` (`extern crate n as a`). -/
inductive ImportAlias : Type where
  | Alias : String → ImportAlias
  | Underscore : ImportAlias
deriving DecidableEq, Repr

/-- Display of an import alias: the alias name, or `_` for an underscore alias. -/
def ImportAlias.display : ImportAlias → String
  | .Alias n => n
  | .Underscore => "_"

/-- Modelled from the spec: `hir_def::type_ref::TraitBoundModifier` (ignored
by every renderer in `display.rs`, which matches `TypeBound::Path(path, _)`). -/
inductive TraitBoundModifier : Type where
  | None : TraitBoundModifier
  | Maybe : TraitBoundModifier
deriving DecidableEq

/-- The tail of a separated list: `sep ++ x` for every element. -/
def sepTail (sep : String) : List String → String
  | [] => ""
  | x :: xs => sep ++ x ++ sepTail sep xs

/-- A `sep`-separated list: the first element bare, every later element
preceded by `sep` (the `first`/`delim` loop idiom of `display.rs`). -/
def sepBy (sep : String) : List String → String
  | [] => ""
  | x :: xs => x ++ sepTail sep xs

mutual

/-- Modelled from the spec: the fragment of `hir_def::type_ref::TypeRef` that
`display.rs` matches on structurally (`Path`, `Reference`, `Tuple`,
`ImplTrait`); every other constructor is collapsed into `Other`, which the
core never inspects (it only hands it to the type-expression formatter). -/
inductive TypeRef : Type where
  | Path : HirPath → TypeRef
  | Reference : TypeRef → Option String → Mutability → TypeRef
  | Tuple : List TypeRef → TypeRef
  | ImplTrait : List TypeBound → TypeRef
  | Other : String → TypeRef

/-- Modelled from the spec: `hir_def::type_ref::TypeBound`; only the `Path`
constructor is inspected by `display.rs` (async return-type unwrapping). -/
inductive TypeBound : Type where
  | Path : HirPath → TraitBoundModifier → TypeBound
  | Other : String → TypeBound

/-- Modelled from the spec: `hir_def::path::Path` as used by `display.rs`:
an ordered list of segments. -/
inductive HirPath : Type where
  | mk : List PathSegment → HirPath

/-- Modelled from the spec: a path segment: a name plus optional generic
arguments and associated-type bindings (`args_and_bindings`). -/
inductive PathSegment : Type where
  | mk : String → Option GenericArgs → PathSegment

/-- Modelled from the spec: `hir_def::path::GenericArgs`; only the `bindings`
list is inspected by `display.rs`. -/
inductive GenericArgs : Type where
  | mk : List AssociatedTypeBinding → GenericArgs

/-- Modelled from the spec: an associated-type binding `Name = Type`; the
type is optional (`type_ref: Option<TypeRef>`). -/
inductive AssociatedTypeBinding : Type where
  | mk : String → Option TypeRef → AssociatedTypeBinding

end

/-- The segments of a path. -/
def HirPath.segments : HirPath → List PathSegment
  | .mk s => s

/-- The name of a path segment. -/
def PathSegment.name : PathSegment → String
  | .mk n _ => n

/-- The `args_and_bindings` of a path segment. -/
def PathSegment.args_and_bindings : PathSegment → Option GenericArgs
  | .mk _ a => a

/-- The associated-type bindings of a `GenericArgs`. -/
def GenericArgs.bindings : GenericArgs → List AssociatedTypeBinding
  | .mk b => b

/-- The name of an associated-type binding. -/
def AssociatedTypeBinding.name : AssociatedTypeBinding → String
  | .mk n _ => n

/-- The bound type of an associated-type binding. -/
def AssociatedTypeBinding.type_ref : AssociatedTypeBinding → Option TypeRef
  | .mk _ t => t

/-- Modelled from the spec: `Path::is_self_type` — the path is the enclosing
`Self` type used by name: a single segment named `Self` with no generic
arguments. -/
def HirPath.is_self_type : HirPath → Bool
  | .mk [.mk n none] => n == "Self"
  | _ => false

mutual

/-- Structural equality on the embedded `TypeRef` (Rust's derived `PartialEq`). -/
def TypeRef.beq : TypeRef → TypeRef → Bool
  | .Path p, .Path q => HirPath.beq p q
  | .Reference t1 l1 m1, .Reference t2 l2 m2 =>
      TypeRef.beq t1 t2 && l1 == l2 && m1 == m2
  | .Tuple ts, .Tuple us => TypeRef.beqList ts us
  | .ImplTrait bs, .ImplTrait cs => TypeBound.beqList bs cs
  | .Other s, .Other t => s == t
  | _, _ => false

/-- Pointwise structural equality on lists of `TypeRef`. -/
def TypeRef.beqList : List TypeRef → List TypeRef → Bool
  | [], [] => true
  | t :: ts, u :: us => TypeRef.beq t u && TypeRef.beqList ts us
  | _, _ => false

/-- Structural equality on the embedded `TypeBound`. -/
def TypeBound.beq : TypeBound → TypeBound → Bool
  | .Path p m1, .Path q m2 => HirPath.beq p q && m1 == m2
  | .Other s, .Other t => s == t
  | _, _ => false

/-- Pointwise structural equality on lists of `TypeBound`. -/
def TypeBound.beqList : List TypeBound → List TypeBound → Bool
  | [], [] => true
  | b :: bs, c :: cs => TypeBound.beq b c && TypeBound.beqList bs cs
  | _, _ => false

/-- Structural equality on the embedded `Path`. -/
def HirPath.beq : HirPath → HirPath → Bool
  | .mk s1, .mk s2 => PathSegment.beqList s1 s2

/-- Pointwise structural equality on lists of path segments. -/
def PathSegment.beqList : List PathSegment → List PathSegment → Bool
  | [], [] => true
  | s :: ss, t :: ts => PathSegment.beq s t && PathSegment.beqList ss ts
  | _, _ => false

/-- Structural equality on path segments. -/
def PathSegment.beq : PathSegment → PathSegment → Bool
  | .mk n1 none, .mk n2 none => n1 == n2
  | .mk n1 (some g1), .mk n2 (some g2) => n1 == n2 && GenericArgs.beq g1 g2
  | _, _ => false

/-- Structural equality on `GenericArgs`. -/
def GenericArgs.beq : GenericArgs → GenericArgs → Bool
  | .mk bs, .mk cs => AssociatedTypeBinding.beqList bs cs

/-- Pointwise structural equality on lists of associated-type bindings. -/
def AssociatedTypeBinding.beqList :
    List AssociatedTypeBinding → List AssociatedTypeBinding → Bool
  | [], [] => true
  | b :: bs, c :: cs => AssociatedTypeBinding.beq b c && AssociatedTypeBinding.beqList bs cs
  | _, _ => false

/-- Structural equality on associated-type bindings. -/
def AssociatedTypeBinding.beq : AssociatedTypeBinding → AssociatedTypeBinding → Bool
  | .mk n1 none, .mk n2 none => n1 == n2
  | .mk n1 (some t1), .mk n2 (some t2) => n1 == n2 && TypeRef.beq t1 t2
  | _, _ => false

end

instance : BEq TypeRef := ⟨TypeRef.beq⟩

/-- External collaborators of the core: the type-expression formatter and the
trait-bound formatter (`hir_ty`'s `HirDisplay` for types), treated as opaque
leaf operations that the core only delegates to. -/
structure Ctx : Type where
  fmtTy : TypeRef → String
  fmtBound : TypeBound → String

/-- Modelled from the spec: `hir_def::generics::TypeParamProvenance` — whether
a type parameter was written in the explicit parameter list or synthesized
(trait `Self`, argument-position `impl Trait`). -/
inductive TypeParamProvenance : Type where
  | TypeParamList : TypeParamProvenance
  | TraitSelf : TypeParamProvenance
  | ArgumentImplTrait : TypeParamProvenance
deriving DecidableEq, Repr

/-- Modelled from the spec: `hir_def::generics::TypeParamData` (name may be
absent for synthetic parameters; optional default type). -/
structure TypeParamData : Type where
  name : Option String
  default : Option TypeRef
  provenance : TypeParamProvenance

/-- Modelled from the spec: `hir_def::generics::ConstParamData` (name is
always present; a type; an optional default rendered by its own display,
carried here as the already-rendered string). -/
structure ConstParamData : Type where
  name : String
  ty : TypeRef
  default : Option String

/-- Modelled from the spec: `hir_def::generics::TypeOrConstParamData`. -/
inductive TypeOrConstParamData : Type where
  | TypeParamData : TypeParamData → TypeOrConstParamData
  | ConstParamData : ConstParamData → TypeOrConstParamData

/-- `TypeOrConstParamData::name()`: the (optional) name of the entry. -/
def TypeOrConstParamData.name : TypeOrConstParamData → Option String
  | .TypeParamData t => t.name
  | .ConstParamData c => some c.name

/-- `TypeOrConstParamData::const_param().is_some()`. -/
def TypeOrConstParamData.isConstParam : TypeOrConstParamData → Bool
  | .TypeParamData _ => false
  | .ConstParamData _ => true

/-- `TypeOrConstParamData::type_param()`. -/
def TypeOrConstParamData.typeParam :
    TypeOrConstParamData → Option HirDisplay.TypeParamData
  | .TypeParamData t => some t
  | .ConstParamData _ => none

/-- Modelled from the spec: a lifetime parameter datum (its name). -/
structure LifetimeParamData : Type where
  name : String

/-- Modelled from the spec: a lifetime reference (its name), as in
`WherePredicate::Lifetime` targets and bounds and in `TypeRef::Reference`. -/
structure LifetimeRef : Type where
  name : String
deriving DecidableEq, Repr

/-- Modelled from the spec: `hir_def::generics::WherePredicateTypeTarget`:
either a bare type expression or a reference (by index) into the
declaration's `type_or_consts` arena. -/
inductive WherePredicateTypeTarget : Type where
  | TypeRef : TypeRef → WherePredicateTypeTarget
  | TypeOrConstParam : Nat → WherePredicateTypeTarget

/-- Structural equality on where-predicate targets (Rust's `PartialEq`). -/
def WherePredicateTypeTarget.beq :
    WherePredicateTypeTarget → WherePredicateTypeTarget → Bool
  | .TypeRef t1, .TypeRef t2 => TypeRef.beq t1 t2
  | .TypeOrConstParam i1, .TypeOrConstParam i2 => i1 == i2
  | _, _ => false

instance : BEq WherePredicateTypeTarget := ⟨WherePredicateTypeTarget.beq⟩

/-- Modelled from the spec: `hir_def::generics::WherePredicate` — a type
bound, a lifetime bound, or a higher-ranked (`for<...>`) bound. -/
inductive WherePredicate : Type where
  | TypeBound : WherePredicateTypeTarget → TypeBound → WherePredicate
  | Lifetime : LifetimeRef → LifetimeRef → WherePredicate
  | ForLifetime : List String → WherePredicateTypeTarget → TypeBound → WherePredicate

/-- Modelled from the spec: `hir_def::generics::GenericParams` — the ordered
lifetime parameters, the ordered type-or-const entries, and the ordered
where-predicate list of one declaration. -/
structure GenericParams : Type where
  lifetimes : List LifetimeParamData
  type_or_consts : List TypeOrConstParamData
  where_predicates : List WherePredicate

/-- `params.type_or_consts[id].name()`: name of the arena entry at `id`
(indices produced upstream always point into the arena; an out-of-range
index is treated as an unnamed entry). -/
def GenericParams.nameOf (params : GenericParams) (id : Nat) : Option String :=
  (params.type_or_consts.get? id).bind TypeOrConstParamData.name

/-- `is_unnamed_type_target` from `write_where_clause`: a parameter-list
target whose entry has no name (bare type-expression targets are never
unnamed). -/
def is_unnamed_type_target (params : GenericParams)
    (target : WherePredicateTypeTarget) : Bool :=
  match target with
  | .TypeRef _ => false
  | .TypeOrConstParam id => (params.nameOf id).isNone

/-- `has_displayable_predicate` from `write_where_clause`: some predicate is
not a type bound on an unnamed parameter-list target. -/
def has_displayable_predicate (params : GenericParams) : Bool :=
  params.where_predicates.any fun pred =>
    !(match pred with
      | .TypeBound target _ => is_unnamed_type_target params target
      | _ => false)

/-- `write_target` from `write_where_clause`: a bare type target is delegated
to the type formatter; a parameter target renders as its name, or as the
literal `{unnamed}` placeholder when unnamed. -/
def write_target (ctx : Ctx) (params : GenericParams)
    (target : WherePredicateTypeTarget) : String :=
  match target with
  | .TypeRef ty => ctx.fmtTy ty
  | .TypeOrConstParam id =>
    match params.nameOf id with
    | some name => name
    | none => "\x7bunnamed\x7d"

/-- The text one predicate contributes inside the loop of
`write_where_clause`, given the previous predicate and the predicate's index
in the full list (`new_predicate` emits `\n    ` at index 0 and `,\n    `
otherwise). -/
def render_pred (ctx : Ctx) (params : GenericParams)
    (prev : Option WherePredicate) (idx : Nat) (pred : WherePredicate) : String :=
  let new_predicate : String := if idx == 0 then "\n    " else ",\n    "
  match pred with
  | .TypeBound target bound =>
    if is_unnamed_type_target params target then ""
    else if (match prev with
             | some (.TypeBound target_ _) => target_ == target
             | _ => false) then
      " + " ++ ctx.fmtBound bound
    else
      new_predicate ++ write_target ctx params target ++ ": " ++ ctx.fmtBound bound
  | .Lifetime target bound =>
    if (match prev with
        | some (.Lifetime target_ _) => target_ == target
        | _ => false) then
      " + " ++ bound.name
    else
      new_predicate ++ target.name ++ ": " ++ bound.name
  | .ForLifetime lifetimes target bound =>
    if (match prev with
        | some (.ForLifetime lifetimes_ target_ _) =>
          lifetimes_ == lifetimes && target_ == target
        | _ => false) then
      " + " ++ ctx.fmtBound bound
    else
      new_predicate ++ "for<" ++ sepBy ", " lifetimes ++ "> "
        ++ write_target ctx params target ++ ": " ++ ctx.fmtBound bound

/-- The predicate loop of `write_where_clause`: each predicate is rendered
with its index and its immediate predecessor. -/
def renderPreds (ctx : Ctx) (params : GenericParams) :
    Nat → Option WherePredicate → List WherePredicate → String
  | _, _, [] => ""
  | idx, prev, p :: rest =>
    render_pred ctx params prev idx p ++ renderPreds ctx params (idx + 1) (some p) rest

/-- `write_where_clause` from `display.rs`: emit nothing when no predicate is
displayable; otherwise `\nwhere`, the predicate groups, and a trailing `,`. -/
def write_where_clause (ctx : Ctx) (params : GenericParams) : String :=
  if !has_displayable_predicate params then ""
  else
    "\nwhere" ++ renderPreds ctx params 0 none params.where_predicates ++ ","

/-- The rendering of one `type_or_consts` entry inside the loop of
`write_generic_params`, or `none` when the entry contributes nothing (an
unnamed entry, or a type parameter whose provenance is not
`TypeParamList`). -/
def gpEntry (ctx : Ctx) (tc : TypeOrConstParamData) : Option String :=
  match tc.name with
  | none => none
  | some name =>
    match tc with
    | .TypeParamData ty =>
      if ty.provenance != TypeParamProvenance.TypeParamList then none
      else
        some (name ++ match ty.default with
          | some d => " = " ++ ctx.fmtTy d
          | none => "")
    | .ConstParamData c =>
      some ("const " ++ name ++ ": " ++ ctx.fmtTy c.ty ++ match c.default with
        | some d => " = " ++ d
        | none => "")

/-- The `first`/`delim` accumulation of `write_generic_params`: each rendered
entry is preceded by `, ` except the first. -/
def gpFold (acc : String × Bool) (piece : String) : String × Bool :=
  (acc.1 ++ (if acc.2 then "" else ", ") ++ piece, false)

/-- `write_generic_params` from `display.rs`: emit nothing when there are no
lifetime parameters, no const parameters, and no type parameter written in
the explicit parameter list; otherwise `<`, the lifetime parameters, then the
named const parameters and explicit type parameters in declaration order,
`, `-separated, then `>`. -/
def write_generic_params (ctx : Ctx) (params : GenericParams) : String :=
  if params.lifetimes.isEmpty
      && params.type_or_consts.all (fun it => !it.isConstParam)
      && (params.type_or_consts.filterMap TypeOrConstParamData.typeParam).all
           (fun param => !(param.provenance == TypeParamProvenance.TypeParamList))
  then ""
  else
    let entries :=
      params.lifetimes.map LifetimeParamData.name
        ++ params.type_or_consts.filterMap (gpEntry ctx)
    ((entries.foldl gpFold ("<", true)).1) ++ ">"

/-- Modelled from the spec: the slice of `hir_def::data::FunctionData` that
`Function::hir_fmt` and `SelfParam::hir_fmt` read: qualifier flags, optional
ABI string, name, declared parameter types, variadic flag and declared
return type. -/
structure FunctionData : Type where
  name : String
  has_default_kw : Bool
  has_const_kw : Bool
  has_async_kw : Bool
  abi : Option String
  params : List TypeRef
  is_varargs : Bool
  ret_type : TypeRef

/-- Modelled from the spec: the database-derived view of one `Function`
declaration that `Function::hir_fmt` queries: its `FunctionData`, the
rendered visibility (the visibility writer is an external collaborator),
whether it is unsafe to call, whether it has a self parameter, the local
binding name of each associated-function parameter, and its generic
parameters. -/
structure FunctionRec : Type where
  data : FunctionData
  visibility : String
  is_unsafe_to_call : Bool
  has_self_param : Bool
  param_locals : List (Option String)
  generic_params : GenericParams

/-- The async return-type unwrapping of `Function::hir_fmt` (lines 92–108):
for an async function the declared return type must be
`impl Trait` whose first bound is a path whose last segment carries
bindings whose first binding has a concrete type; that type is the effective
return type.  Every `panic!`/`unwrap`/out-of-range index on the way is
modelled as `none`. -/
def asyncRetType : TypeRef → Option TypeRef
  | .ImplTrait bounds =>
    match bounds.head? with
    | some (.Path path _) =>
      match path.segments.getLast? with
      | some seg =>
        match seg.args_and_bindings with
        | some ab =>
          match ab.bindings.head? with
          | some b => b.type_ref
          | none => none
        | none => none
      | none => none
    | some (.Other _) => none
    | none => none
  | _ => none

/-- The effective return type used by `Function::hir_fmt`: the declared type
for a non-async function, the unwrapped future output for an async one
(`none` models the fatal panic when the async sugar shape is violated). -/
def effectiveRetType (data : FunctionData) : Option TypeRef :=
  if !data.has_async_kw then some data.ret_type
  else asyncRetType data.ret_type

/-- `SelfParam::hir_fmt`: matches structurally on the first declared
parameter type; `none` models the `unwrap` panic when there is no declared
parameter. -/
def selfParamFmt (ctx : Ctx) (data : FunctionData) : Option String :=
  match data.params.head? with
  | none => none
  | some param =>
    some (match param with
      | .Path p =>
        if p.is_self_type then "self"
        else "self: " ++ ctx.fmtTy (.Path p)
      | .Reference inner lifetime mut_ =>
        if (match inner with
            | .Path p => p.is_self_type
            | _ => false) then
          "&"
            ++ (match lifetime with
                | some lt => lt ++ " "
                | none => "")
            ++ (match mut_ with
                | .Mut => "mut "
                | .Shared => "")
            ++ "self"
        else "self: " ++ ctx.fmtTy (.Reference inner lifetime mut_)
      | ty => "self: " ++ ctx.fmtTy ty)

/-- The qualifier-and-header prefix of `Function::hir_fmt` (lines 37–54):
visibility, then `default `, `const `, `async `, `unsafe ` each if set, the
optional `extern "ABI" ` token, then `fn ` and the name. -/
def fnHeader (fn : FunctionRec) : String :=
  fn.visibility
    ++ (if fn.data.has_default_kw then "default " else "")
    ++ (if fn.data.has_const_kw then "const " else "")
    ++ (if fn.data.has_async_kw then "async " else "")
    ++ (if fn.is_unsafe_to_call then "unsafe " else "")
    ++ (match fn.data.abi with
        | some abi => "extern \"" ++ abi ++ "\" "
        | none => "")
    ++ "fn " ++ fn.data.name

/-- The non-self parameter loop of `Function::hir_fmt`: each parameter
renders as `NAME: TYPE` or `_: TYPE`, preceded by `, ` unless it is the
first thing inside the parentheses. -/
def renderParams (ctx : Ctx) : List (TypeRef × Option String) → Bool → String
  | [], _ => ""
  | (ty, localName) :: rest, first =>
    (if first then "" else ", ")
      ++ (match localName with
          | some n => n ++ ": "
          | none => "_: ")
      ++ ctx.fmtTy ty
      ++ renderParams ctx rest false

/-- The ` -> RET` suffix of `Function::hir_fmt`: omitted when the effective
return type is the empty tuple. -/
def retSuffix (ctx : Ctx) (ret : TypeRef) : String :=
  match ret with
  | .Tuple [] => ""
  | ty => " -> " ++ ctx.fmtTy ty

/-- `Function::hir_fmt` from `display.rs`: header, generic parameters, the
parenthesized parameter list (self parameter first when present), the
variadic `, ...`, the effective return type and the where-clause.  `none`
models the panics (async sugar shape violation; self parameter with no
declared first parameter). -/
def Function.hir_fmt (ctx : Ctx) (fn : FunctionRec) : Option String :=
  let selfPart : Option String :=
    if fn.has_self_param then selfParamFmt ctx fn.data else some ""
  match selfPart with
  | none => none
  | some selfStr =>
    let skip_self := if fn.has_self_param then 1 else 0
    let rest := renderParams ctx
      ((fn.data.params.zip fn.param_locals).drop skip_self) (!fn.has_self_param)
    match effectiveRetType fn.data with
    | none => none
    | some ret =>
      some (fnHeader fn
        ++ write_generic_params ctx fn.generic_params
        ++ "(" ++ selfStr ++ rest
        ++ (if fn.data.is_varargs then ", ..." else "")
        ++ ")"
        ++ retSuffix ctx ret
        ++ write_where_clause ctx fn.generic_params)

/-- Modelled from the spec: the view of a field declaration that
`Field::hir_fmt` reads: rendered visibility, name, and the field's resolved
type. -/
structure FieldRec : Type where
  visibility : String
  name : String
  ty : TypeRef

/-- `Field::hir_fmt`: visibility, name, `: `, the field's type. -/
def Field.hir_fmt (ctx : Ctx) (field : FieldRec) : String :=
  field.visibility ++ field.name ++ ": " ++ ctx.fmtTy field.ty

/-- Modelled from the spec: `hir_def::data::adt::StructKind`. -/
inductive StructKind : Type where
  | Tuple : StructKind
  | Record : StructKind
  | Unit : StructKind
deriving DecidableEq, Repr

/-- Modelled from the spec: the view of a struct declaration that
`Struct::hir_fmt` reads. -/
structure StructRec : Type where
  visibility : String
  name : String
  generic_params : GenericParams
  kind : StructKind
  fields : List FieldRec

/-- The record body shared by `Struct::hir_fmt` (record shape, nonempty) and
`Union::hir_fmt` (nonempty): ` {\n`, one `    FIELD,\n` line per field,
`}`. -/
def recordFieldBlock (ctx : Ctx) (fields : List FieldRec) : String :=
  " \x7b\n"
    ++ String.join (fields.map fun field => "    " ++ Field.hir_fmt ctx field ++ ",\n")
    ++ "\x7d"

/-- `Struct::hir_fmt`: visibility, `struct `, name, generics; a tuple body
(`(T, U);`) before the where-clause; the where-clause; then for record shape
either ` {}` (zero fields) or the field block. -/
def Struct.hir_fmt (ctx : Ctx) (s : StructRec) : String :=
  s.visibility ++ "struct " ++ s.name
    ++ write_generic_params ctx s.generic_params
    ++ (if s.kind == StructKind.Tuple then
          "(" ++ sepBy ", " (s.fields.map fun field => ctx.fmtTy field.ty) ++ ");"
        else "")
    ++ write_where_clause ctx s.generic_params
    ++ (if s.kind == StructKind.Record then
          if s.fields.isEmpty then " {}" else recordFieldBlock ctx s.fields
        else "")

/-- Modelled from the spec: the view of a union declaration that
`Union::hir_fmt` reads. -/
structure UnionRec : Type where
  visibility : String
  name : String
  generic_params : GenericParams
  fields : List FieldRec

/-- `Union::hir_fmt`: visibility, `union `, name, generics, where-clause,
then the field block only when there is at least one field (an empty union
renders no body at all). -/
def Union.hir_fmt (ctx : Ctx) (u : UnionRec) : String :=
  u.visibility ++ "union " ++ u.name
    ++ write_generic_params ctx u.generic_params
    ++ write_where_clause ctx u.generic_params
    ++ (if u.fields.isEmpty then "" else recordFieldBlock ctx u.fields)

/-- Modelled from the spec: the view of an `extern crate` declaration that
`ExternCrateDecl::hir_fmt` reads: rendered visibility, the crate's name and
the optional import alias. -/
structure ExternCrateDeclRec : Type where
  visibility : String
  name : String
  alias_ : Option ImportAlias

/-- `ExternCrateDecl::hir_fmt`: visibility, `extern crate `, the name, and
` as ALIAS` only when an alias is present. -/
def ExternCrateDecl.hir_fmt (d : ExternCrateDeclRec) : String :=
  d.visibility ++ "extern crate " ++ d.name
    ++ (match d.alias_ with
        | some al => " as " ++ al.display
        | none => "")

/-- A concrete instantiation of the external type-expression formatter, used
to evaluate the renderers on concrete inputs: `Other` renders its payload,
paths render as their `::`-joined segment names, everything else as a fixed
placeholder. -/
def simpleFmtTy : TypeRef → String
  | .Other s => s
  | .Path p => sepBy "::" (p.segments.map PathSegment.name)
  | .Reference _ _ _ => "&_"
  | .Tuple _ => "(..)"
  | .ImplTrait _ => "impl _"

/-- A concrete instantiation of the external trait-bound formatter. -/
def simpleFmtBound : TypeBound → String
  | .Other s => s
  | .Path p _ => sepBy "::" (p.segments.map PathSegment.name)

/-- A concrete `Ctx` built from the simple formatters, for evaluating the
renderers on concrete inputs. -/
def simpleCtx : Ctx :=
  { fmtTy := simpleFmtTy, fmtBound := simpleFmtBound }

/-- A declaration with no generic parameters and no predicates. -/
def emptyGenericParams : GenericParams :=
  { lifetimes := [], type_or_consts := [], where_predicates := [] }

/-- A declaration whose first predicate is a type bound on an unnamed
synthetic parameter (an argument-position `impl Trait`) and whose second
predicate is a displayable bound `X: B` on a bare type expression. -/
def firstElidedParams : GenericParams :=
  { lifetimes := [],
    type_or_consts := [.TypeParamData
      { name := none, default := none, provenance := .ArgumentImplTrait }],
    where_predicates :=
      [.TypeBound (.TypeOrConstParam 0) (.Other "A"),
       .TypeBound (.TypeRef (.Other "X")) (.Other "B")] }

/-- A declaration with a single displayable predicate `T: Clone`. -/
def oneDisplayableParams : GenericParams :=
  { lifetimes := [], type_or_consts := [],
    where_predicates := [.TypeBound (.TypeRef (.Other "T")) (.Other "Clone")] }

/-- A declaration with one lifetime parameter, one explicit type parameter
and one const parameter. -/
def gpExampleParams : GenericParams :=
  { lifetimes := [{ name := "'a" }],
    type_or_consts :=
      [.TypeParamData { name := some "T", default := none, provenance := .TypeParamList },
       .ConstParamData { name := "N", ty := .Other "usize", default := none }],
    where_predicates := [] }

/-- The declared return type of a desugared async function returning `i32`:
`impl Future<Output = i32>`. -/
def asyncFutureRet : TypeRef :=
  .ImplTrait [.Path (.mk [.mk "Future"
    (some (.mk [.mk "Output" (some (.Other "i32"))]))]) .None]

/-- The `FunctionData` of `async fn go() -> i32` after desugaring. -/
def asyncFnData : FunctionData :=
  { name := "go", has_default_kw := false, has_const_kw := false,
    has_async_kw := true, abi := none, params := [], is_varargs := false,
    ret_type := asyncFutureRet }

/-- The `FunctionData` of a method `fn take(self)` whose first declared
parameter is the `Self` type used by name. -/
def byValueSelfFnData : FunctionData :=
  { name := "take", has_default_kw := false, has_const_kw := false,
    has_async_kw := false, abi := none,
    params := [.Path (.mk [.mk "Self" none])], is_varargs := false,
    ret_type := .Tuple [] }

/-- A `FunctionRec` with every qualifier set and an ABI string, for
observing the emitted qualifier sequence. -/
def qualifiedFnRec : FunctionRec :=
  { data :=
      { name := "go", has_default_kw := true, has_const_kw := true,
        has_async_kw := true, abi := some "C", params := [], is_varargs := false,
        ret_type := asyncFutureRet },
    visibility := "pub ", is_unsafe_to_call := true, has_self_param := false,
    param_locals := [], generic_params := emptyGenericParams }

/-- A union declaration with zero fields. -/
def emptyFieldUnion : UnionRec :=
  { visibility := "pub ", name := "U", generic_params := emptyGenericParams,
    fields := [] }

/-- A union declaration with one field `x: i32`. -/
def oneFieldUnion : UnionRec :=
  { visibility := "pub ", name := "U", generic_params := emptyGenericParams,
    fields := [{ visibility := "", name := "x", ty := .Other "i32" }] }

/-- An `extern crate foo as bar;` declaration. -/
def externCrateExample : ExternCrateDeclRec :=
  { visibility := "", name := "foo", alias_ := some (.Alias "bar") }

/-! ## Shared lemmas -/

/-- String append is associative. -/
theorem sapp_assoc (a b c : String) : a ++ b ++ c = a ++ (b ++ c) := by
  apply String.ext
  simp [String.data_append, List.append_assoc]

/-- The empty string is a right identity for append. -/
theorem sapp_nilr (a : String) : a ++ "" = a := by
  apply String.ext
  simp [String.data_append]

/-- Appending to a nonempty string on the left stays nonempty. -/
theorem sapp_ne_empty_left (a b : String) (h : a ≠ "") : a ++ b ≠ "" := by
  intro hc
  apply h
  apply String.ext
  have hd := congrArg String.data hc
  simp only [String.data_append] at hd
  have : a.data = [] ∧ b.data = [] := List.append_eq_nil.mp hd
  exact this.1

/-- `has_displayable_predicate` is `false` exactly when every predicate is a
type bound on an unnamed parameter-list target. -/
theorem has_displayable_false_iff (params : GenericParams) :
    has_displayable_predicate params = false ↔
    ∀ p ∈ params.where_predicates, ∃ target bound,
      p = WherePredicate.TypeBound target bound ∧
      is_unnamed_type_target params target = true := by
  unfold has_displayable_predicate
  rw [List.any_eq_false]
  constructor
  · intro h p hp
    have h2 := h p hp
    cases p with
    | TypeBound target bound =>
      cases hu : is_unnamed_type_target params target
      · exfalso
        apply h2
        simp [hu]
      · exact ⟨target, bound, rfl, hu⟩
    | Lifetime target bound => simp at h2
    | ForLifetime lifetimes target bound => simp at h2
  · intro h p hp
    rcases h p hp with ⟨target, bound, rfl, hu⟩
    simp [hu]

/-- The `first`/`delim` fold starting with `first = false` appends `, ` before
every element. -/
theorem gpFold_false (l : List String) (acc : String) :
    (l.foldl gpFold (acc, false)).1 = acc ++ sepTail ", " l := by
  induction l generalizing acc with
  | nil => simp [sepTail, sapp_nilr]
  | cons x xs ih =>
    rw [List.foldl_cons]
    show (xs.foldl gpFold (acc ++ ", " ++ x, false)).1 = _
    rw [ih]
    simp [sepTail, ← sapp_assoc]

/-- The `first`/`delim` fold starting with `first = true` renders a
`, `-separated list with no leading and no trailing separator. -/
theorem gpFold_true (l : List String) (acc : String) :
    (l.foldl gpFold (acc, true)).1 = acc ++ sepBy ", " l := by
  cases l with
  | nil => simp [sepBy, sapp_nilr]
  | cons x xs =>
    rw [List.foldl_cons]
    show (xs.foldl gpFold (acc ++ "" ++ x, false)).1 = _
    rw [gpFold_false, sapp_nilr]
    simp [sepBy, ← sapp_assoc]

/-- `TypeOrConstParamData.typeParam` inverts the `TypeParamData` injection. -/
theorem typeParam_eq_some_iff (tc : TypeOrConstParamData) (t : TypeParamData) :
    tc.typeParam = some t ↔ tc = TypeOrConstParamData.TypeParamData t := by
  cases tc with
  | TypeParamData u =>
    simp only [TypeOrConstParamData.typeParam, Option.some.injEq,
      TypeOrConstParamData.TypeParamData.injEq]
  | ConstParamData c => simp [TypeOrConstParamData.typeParam]

/-- The omission guard of `write_generic_params`, characterized: it holds
exactly when there are no lifetime parameters, no const parameters and no
explicit type parameter. -/
theorem gp_guard_iff (params : GenericParams) :
    (params.lifetimes.isEmpty
      && params.type_or_consts.all (fun it => !it.isConstParam)
      && (params.type_or_consts.filterMap TypeOrConstParamData.typeParam).all
           (fun param => !(param.provenance == TypeParamProvenance.TypeParamList))) = true
    ↔ (params.lifetimes = []
       ∧ (∀ tc ∈ params.type_or_consts, tc.isConstParam = false)
       ∧ (∀ t : TypeParamData,
            TypeOrConstParamData.TypeParamData t ∈ params.type_or_consts →
            t.provenance ≠ TypeParamProvenance.TypeParamList)) := by
  simp only [Bool.and_eq_true, List.all_eq_true, List.isEmpty_iff,
    List.mem_filterMap, Bool.not_eq_true']
  constructor
  · rintro ⟨⟨hl, hc⟩, ht⟩
    refine ⟨hl, hc, ?_⟩
    intro t hmem hprov
    have := ht t ⟨TypeOrConstParamData.TypeParamData t, hmem,
      (typeParam_eq_some_iff _ t).mpr rfl⟩
    rw [hprov] at this
    simp at this
  · rintro ⟨hl, hc, ht⟩
    refine ⟨⟨hl, hc⟩, ?_⟩
    rintro t ⟨tc, hmem, htc⟩
    have heq := (typeParam_eq_some_iff tc t).mp htc
    subst heq
    have := ht t hmem
    simp only [beq_eq_false_iff_ne, ne_eq]
    exact this

/-! ## Claim theorems -/

/-- C1: for a declaration whose where-predicate list is the type-bound
predicates `[T: A, T: B, U: C]` with named targets, the rendered clause is
exactly `T: A + B` followed by `,\n    U: C,` (the two adjacent `T`-target
predicates merge with ` + `, never rendering `T: A, T: B`); and with the
same predicates reordered to `[T: A, U: C, T: B]` — the two `T`-target
predicates no longer adjacent — three separate groups are rendered, since
each predicate is compared only to its immediate predecessor. -/
theorem where_clause_adjacent_grouping (ctx : Ctx) (T U : String)
    (a b c : TypeBound) :
    write_where_clause ctx
      { lifetimes := [],
        type_or_consts := [.TypeParamData ⟨some T, none, .TypeParamList⟩,
                           .TypeParamData ⟨some U, none, .TypeParamList⟩],
        where_predicates := [.TypeBound (.TypeOrConstParam 0) a,
                             .TypeBound (.TypeOrConstParam 0) b,
                             .TypeBound (.TypeOrConstParam 1) c] }
      = "\nwhere\n    " ++ T ++ ": " ++ ctx.fmtBound a ++ " + " ++ ctx.fmtBound b
          ++ ",\n    " ++ U ++ ": " ++ ctx.fmtBound c ++ ","
    ∧ write_where_clause ctx
      { lifetimes := [],
        type_or_consts := [.TypeParamData ⟨some T, none, .TypeParamList⟩,
                           .TypeParamData ⟨some U, none, .TypeParamList⟩],
        where_predicates := [.TypeBound (.TypeOrConstParam 0) a,
                             .TypeBound (.TypeOrConstParam 1) c,
                             .TypeBound (.TypeOrConstParam 0) b] }
      = "\nwhere\n    " ++ T ++ ": " ++ ctx.fmtBound a
          ++ ",\n    " ++ U ++ ": " ++ ctx.fmtBound c
          ++ ",\n    " ++ T ++ ": " ++ ctx.fmtBound b ++ "," := by
  constructor
  · simp [write_where_clause, has_displayable_predicate, renderPreds, render_pred,
      write_target, is_unnamed_type_target, GenericParams.nameOf,
      TypeOrConstParamData.name, BEq.beq, WherePredicateTypeTarget.beq,
      ← sapp_assoc, sapp_nilr]
  · simp [write_where_clause, has_displayable_predicate, renderPreds, render_pred,
      write_target, is_unnamed_type_target, GenericParams.nameOf,
      TypeOrConstParamData.name, BEq.beq, WherePredicateTypeTarget.beq,
      ← sapp_assoc, sapp_nilr]

/-- C3: the where-clause renderer emits the empty string exactly when no
predicate is displayable (every predicate is a type bound on an unnamed
parameter-list entry, vacuously so for an empty list); and whenever it emits
anything, the output is `\nwhere` followed by the predicate groups and a
trailing `,`. -/
theorem where_clause_emission (ctx : Ctx) (params : GenericParams) :
    (write_where_clause ctx params = "" ↔
      ∀ p ∈ params.where_predicates, ∃ target bound,
        p = WherePredicate.TypeBound target bound ∧
        is_unnamed_type_target params target = true)
    ∧ (write_where_clause ctx params ≠ "" →
        ∃ s, write_where_clause ctx params = "\nwhere" ++ s ++ ",") := by
  by_cases hd : has_displayable_predicate params
  · have hout : write_where_clause ctx params
        = "\nwhere" ++ renderPreds ctx params 0 none params.where_predicates ++ "," := by
      simp [write_where_clause, hd]
    have hne : write_where_clause ctx params ≠ "" := by
      rw [hout]
      apply sapp_ne_empty_left
      apply sapp_ne_empty_left
      decide
    constructor
    · constructor
      · intro h
        exact absurd h hne
      · intro h
        exfalso
        rw [← Bool.not_eq_false] at hd
        exact hd ((has_displayable_false_iff params).mpr h)
    · intro _
      exact ⟨renderPreds ctx params 0 none params.where_predicates, hout⟩
  · rw [Bool.not_eq_true] at hd
    have hout : write_where_clause ctx params = "" := by
      simp [write_where_clause, hd]
    constructor
    · constructor
      · intro _
        exact (has_displayable_false_iff params).mp hd
      · intro _
        exact hout
    · intro h
      exact absurd hout h

/-- Witness for C3 at a concrete declaration with one displayable predicate. -/
theorem where_clause_emission_witness :
    ∃ s, write_where_clause simpleCtx oneDisplayableParams = "\nwhere" ++ s ++ "," :=
  (where_clause_emission simpleCtx oneDisplayableParams).2 (by decide)

/-- C4: the generic-parameter-list renderer emits no `<...>` clause at all
exactly when the declaration has no lifetime parameters, no const parameters
and no explicit type parameter; otherwise it renders the lifetime parameters
first and then the entries contributed by the type-or-const list in
declaration order, `, `-separated with no trailing comma, where an
inexplicit (synthetic) type parameter contributes nothing, an explicit named
type parameter contributes its name (plus ` = DEFAULT`), and a const
parameter contributes `const NAME: TYPE` (plus ` = DEFAULT`). -/
theorem generic_params_clause (ctx : Ctx) (params : GenericParams) :
    (write_generic_params ctx params = "" ↔
      (params.lifetimes = []
       ∧ (∀ tc ∈ params.type_or_consts, tc.isConstParam = false)
       ∧ (∀ t : TypeParamData,
            TypeOrConstParamData.TypeParamData t ∈ params.type_or_consts →
            t.provenance ≠ TypeParamProvenance.TypeParamList)))
    ∧ (write_generic_params ctx params ≠ "" →
        write_generic_params ctx params
          = "<" ++ sepBy ", " (params.lifetimes.map LifetimeParamData.name
              ++ params.type_or_consts.filterMap (gpEntry ctx)) ++ ">")
    ∧ (∀ t : TypeParamData, t.provenance ≠ TypeParamProvenance.TypeParamList →
        gpEntry ctx (TypeOrConstParamData.TypeParamData t) = none)
    ∧ (∀ (t : TypeParamData) (n : String), t.name = some n →
        t.provenance = TypeParamProvenance.TypeParamList →
        gpEntry ctx (TypeOrConstParamData.TypeParamData t)
          = some (n ++ match t.default with
              | some d => " = " ++ ctx.fmtTy d
              | none => ""))
    ∧ (∀ c : ConstParamData,
        gpEntry ctx (TypeOrConstParamData.ConstParamData c)
          = some ("const " ++ c.name ++ ": " ++ ctx.fmtTy c.ty
              ++ match c.default with
                 | some d => " = " ++ d
                 | none => "")) := by
  have hmain : ∀ hg : (params.lifetimes.isEmpty
      && params.type_or_consts.all (fun it => !it.isConstParam)
      && (params.type_or_consts.filterMap TypeOrConstParamData.typeParam).all
           (fun param => !(param.provenance == TypeParamProvenance.TypeParamList))) = false,
      write_generic_params ctx params
        = "<" ++ sepBy ", " (params.lifetimes.map LifetimeParamData.name
            ++ params.type_or_consts.filterMap (gpEntry ctx)) ++ ">" := by
    intro hg
    have hout : write_generic_params ctx params
        = ((params.lifetimes.map LifetimeParamData.name
            ++ params.type_or_consts.filterMap (gpEntry ctx)).foldl
              gpFold ("<", true)).1 ++ ">" := by
      unfold write_generic_params
      rw [if_neg (by rw [hg]; simp)]
    rw [hout, gpFold_true]
  have hempty : ∀ hg : (params.lifetimes.isEmpty
      && params.type_or_consts.all (fun it => !it.isConstParam)
      && (params.type_or_consts.filterMap TypeOrConstParamData.typeParam).all
           (fun param => !(param.provenance == TypeParamProvenance.TypeParamList))) = true,
      write_generic_params ctx params = "" := by
    intro hg
    unfold write_generic_params
    rw [if_pos hg]
  refine ⟨?_, ?_, ?_, ?_, ?_⟩
  · by_cases hg : (params.lifetimes.isEmpty
        && params.type_or_consts.all (fun it => !it.isConstParam)
        && (params.type_or_consts.filterMap TypeOrConstParamData.typeParam).all
             (fun param => !(param.provenance == TypeParamProvenance.TypeParamList))) = true
    · rw [hempty hg]
      simp only [eq_self_iff_true, true_iff]
      exact (gp_guard_iff params).mp hg
    · rw [Bool.not_eq_true] at hg
      rw [hmain hg]
      constructor
      · intro h
        exfalso
        exact sapp_ne_empty_left _ ">" (sapp_ne_empty_left "<" _ (by decide)) h
      · intro hP
        exfalso
        have hT := (gp_guard_iff params).mpr hP
        rw [hg] at hT
        exact Bool.false_ne_true hT
  · intro hne
    by_cases hg : (params.lifetimes.isEmpty
        && params.type_or_consts.all (fun it => !it.isConstParam)
        && (params.type_or_consts.filterMap TypeOrConstParamData.typeParam).all
             (fun param => !(param.provenance == TypeParamProvenance.TypeParamList))) = true
    · exact absurd (hempty hg) hne
    · rw [Bool.not_eq_true] at hg
      exact hmain hg
  · intro t h
    have hb : (t.provenance != TypeParamProvenance.TypeParamList) = true := by
      simp [bne_iff_ne, h]
    cases hn : t.name with
    | none => simp [gpEntry, TypeOrConstParamData.name, hn]
    | some n => simp [gpEntry, TypeOrConstParamData.name, hn, hb]
  · intro t n hn hp
    simp [gpEntry, TypeOrConstParamData.name, hn, hp]
  · intro c
    rfl

/-- Witness for C4 at a concrete declaration `<'a, T, const N: usize>`. -/
theorem generic_params_clause_witness :
    write_generic_params simpleCtx gpExampleParams
      = "<" ++ sepBy ", " (gpExampleParams.lifetimes.map LifetimeParamData.name
          ++ gpExampleParams.type_or_consts.filterMap (gpEntry simpleCtx)) ++ ">" :=
  (generic_params_clause simpleCtx gpExampleParams).2.1 (by decide)

/-- Counterexample to C2: when the first predicate in the list is an elided
type bound on an unnamed parameter and the second is displayable, the first
*rendered* group is preceded by a comma (`\nwhere,\n    X: B,`), because the
`new_predicate` comma decision tests the predicate's index in the full list,
not whether anything was already rendered; the claim's predicted output
`\nwhere\n    X: B,` is not produced. -/
theorem where_clause_first_group_comma_cex :
    write_where_clause simpleCtx firstElidedParams = "\nwhere,\n    X: B,"
    ∧ write_where_clause simpleCtx firstElidedParams ≠ "\nwhere\n    X: B," := by
  constructor
  · decide
  · decide

/-- C2 (amended): a type-bound predicate on an unnamed parameter-list target
never contributes any text; a rendered group whose first predicate sits at
index 0 of the predicate list starts with newline + 4-space indent, target,
`: `, bound, with no preceding comma; but when any predicate — including an
elided unnamed-target one — precedes the group's first predicate in the
list, the group is preceded by a comma (`,\n    `). -/
theorem where_clause_first_group_render :
    (∀ (ctx : Ctx) (params : GenericParams) (prev : Option WherePredicate)
        (idx : Nat) (target : WherePredicateTypeTarget) (bound : TypeBound),
      is_unnamed_type_target params target = true →
      render_pred ctx params prev idx (.TypeBound target bound) = "")
    ∧ (∀ (ctx : Ctx) (params : GenericParams) (t : TypeRef) (b : TypeBound)
        (rest : List WherePredicate),
      params.where_predicates = .TypeBound (.TypeRef t) b :: rest →
      ∃ s, write_where_clause ctx params
        = "\nwhere\n    " ++ ctx.fmtTy t ++ ": " ++ ctx.fmtBound b ++ s)
    ∧ (∀ (ctx : Ctx) (t : TypeRef) (b bd : TypeBound),
      write_where_clause ctx
        { lifetimes := [],
          type_or_consts := [.TypeParamData ⟨none, none, .ArgumentImplTrait⟩],
          where_predicates := [.TypeBound (.TypeOrConstParam 0) bd,
                               .TypeBound (.TypeRef t) b] }
        = "\nwhere,\n    " ++ ctx.fmtTy t ++ ": " ++ ctx.fmtBound b ++ ",") := by
  refine ⟨?_, ?_, ?_⟩
  · intro ctx params prev idx target bound h
    simp [render_pred, h]
  · intro ctx params t b rest hpred
    have hd : has_displayable_predicate params = true := by
      unfold has_displayable_predicate
      rw [hpred]
      simp [is_unnamed_type_target]
    refine ⟨renderPreds ctx params 1
      (some (.TypeBound (.TypeRef t) b)) rest ++ ",", ?_⟩
    simp [write_where_clause, hd, hpred, renderPreds, render_pred,
      is_unnamed_type_target, write_target, ← sapp_assoc]
  · intro ctx t b bd
    simp [write_where_clause, has_displayable_predicate, renderPreds, render_pred,
      write_target, is_unnamed_type_target, GenericParams.nameOf,
      TypeOrConstParamData.name, BEq.beq, WherePredicateTypeTarget.beq,
      ← sapp_assoc, sapp_nilr]

/-- Witness for the amended C2 at concrete declarations: an elided
unnamed-target predicate contributes nothing; a displayable first predicate
starts without a comma; an elided-then-displayable list puts a comma before
the first rendered group. -/
theorem where_clause_first_group_render_witness :
    render_pred simpleCtx firstElidedParams none 0
        (.TypeBound (.TypeOrConstParam 0) (.Other "A")) = ""
    ∧ (∃ s, write_where_clause simpleCtx oneDisplayableParams
        = "\nwhere\n    " ++ simpleCtx.fmtTy (.Other "T") ++ ": "
            ++ simpleCtx.fmtBound (.Other "Clone") ++ s)
    ∧ write_where_clause simpleCtx
        { lifetimes := [],
          type_or_consts := [.TypeParamData ⟨none, none, .ArgumentImplTrait⟩],
          where_predicates := [.TypeBound (.TypeOrConstParam 0) (.Other "A"),
                               .TypeBound (.TypeRef (.Other "X")) (.Other "B")] }
        = "\nwhere,\n    " ++ simpleCtx.fmtTy (.Other "X") ++ ": "
            ++ simpleCtx.fmtBound (.Other "B") ++ "," :=
  ⟨where_clause_first_group_render.1 simpleCtx firstElidedParams none 0
      (.TypeOrConstParam 0) (.Other "A") (by decide),
   where_clause_first_group_render.2.1 simpleCtx oneDisplayableParams
      (.Other "T") (.Other "Clone") [] rfl,
   where_clause_first_group_render.2.2 simpleCtx (.Other "X") (.Other "B") (.Other "A")⟩

/-- C5: for an async function whose declared return type is `impl Trait`
whose first bound is a path whose last segment carries at least one
associated-type binding with a concrete type, the renderer uses that
binding's type as the effective return type; and whenever the effective
return type is defined at all for an async function, the declared type has
exactly that shape — so for any other shape the computation fails fatally
(`none`, the `panic!` branch), which is unreachable when the metadata is
well-formed. -/
theorem async_ret_type_unwrap (data : FunctionData)
    (ha : data.has_async_kw = true) :
    (∀ (p : HirPath) (m : TraitBoundModifier) (rest : List TypeBound)
        (seg : PathSegment) (ab : GenericArgs) (bd : AssociatedTypeBinding)
        (bds : List AssociatedTypeBinding) (t : TypeRef),
      data.ret_type = TypeRef.ImplTrait (TypeBound.Path p m :: rest) →
      p.segments.getLast? = some seg →
      seg.args_and_bindings = some ab →
      ab.bindings = bd :: bds →
      bd.type_ref = some t →
      effectiveRetType data = some t)
    ∧ ((effectiveRetType data).isSome = true →
      ∃ (p : HirPath) (m : TraitBoundModifier) (rest : List TypeBound)
        (seg : PathSegment) (ab : GenericArgs) (bd : AssociatedTypeBinding)
        (bds : List AssociatedTypeBinding) (t : TypeRef),
        data.ret_type = TypeRef.ImplTrait (TypeBound.Path p m :: rest)
        ∧ p.segments.getLast? = some seg
        ∧ seg.args_and_bindings = some ab
        ∧ ab.bindings = bd :: bds
        ∧ bd.type_ref = some t
        ∧ effectiveRetType data = some t) := by
  have heff : effectiveRetType data = asyncRetType data.ret_type := by
    simp [effectiveRetType, ha]
  constructor
  · intro p m rest seg ab bd bds t hr hseg hab hb ht
    rw [heff, hr]
    simp [asyncRetType, hseg, hab, hb, ht]
  · intro hs
    rw [heff] at hs
    cases hr : data.ret_type with
    | Path p => rw [hr] at hs; simp [asyncRetType] at hs
    | Reference inner lt m => rw [hr] at hs; simp [asyncRetType] at hs
    | Tuple ts => rw [hr] at hs; simp [asyncRetType] at hs
    | Other s => rw [hr] at hs; simp [asyncRetType] at hs
    | ImplTrait bounds =>
      rw [hr] at hs
      cases bounds with
      | nil => simp [asyncRetType] at hs
      | cons b bs =>
        cases b with
        | Other s => simp [asyncRetType] at hs
        | Path p m =>
          cases hseg : p.segments.getLast? with
          | none => simp [asyncRetType, hseg] at hs
          | some seg =>
            cases hab : seg.args_and_bindings with
            | none => simp [asyncRetType, hseg, hab] at hs
            | some ab =>
              cases hbs : ab.bindings with
              | nil => simp [asyncRetType, hseg, hab, hbs] at hs
              | cons bd bds =>
                cases ht : bd.type_ref with
                | none => simp [asyncRetType, hseg, hab, hbs, ht] at hs
                | some t =>
                  refine ⟨p, m, bs, seg, ab, bd, bds, t, rfl, hseg, hab, hbs, ht, ?_⟩
                  rw [heff, hr]
                  simp [asyncRetType, hseg, hab, hbs, ht]


/-- Witness for C5: the desugared `async fn go() -> i32` has effective
return type `i32`. -/
theorem async_ret_type_unwrap_witness :
    effectiveRetType asyncFnData = some (TypeRef.Other "i32") :=
  (async_ret_type_unwrap asyncFnData rfl).1
    (.mk [.mk "Future" (some (.mk [.mk "Output" (some (.Other "i32"))]))])
    .None []
    (.mk "Future" (some (.mk [.mk "Output" (some (.Other "i32"))])))
    (.mk [.mk "Output" (some (.Other "i32"))])
    (.mk "Output" (some (.Other "i32")))
    [] (.Other "i32") rfl (by simp [HirPath.segments]) rfl rfl rfl

/-- C6: the self-parameter renderer matches structurally on the first
declared parameter type and emits exactly one of three forms: `self` for
the `Self` type used by name; `&` + optional lifetime + optional `mut ` +
`self` for a reference to the `Self` type by name; and `self: ` plus the
fully rendered type in every other case. -/
theorem self_param_forms (ctx : Ctx) (data : FunctionData)
    (param : TypeRef) (rest : List TypeRef)
    (h : data.params = param :: rest) :
    (∀ p : HirPath, param = TypeRef.Path p → p.is_self_type = true →
      selfParamFmt ctx data = some "self")
    ∧ (∀ (p : HirPath) (lt : Option String) (m : Mutability),
        param = TypeRef.Reference (TypeRef.Path p) lt m → p.is_self_type = true →
        selfParamFmt ctx data = some ("&"
          ++ (match lt with
              | some l => l ++ " "
              | none => "")
          ++ (match m with
              | .Mut => "mut "
              | .Shared => "")
          ++ "self"))
    ∧ ((¬ ∃ p : HirPath, param = TypeRef.Path p ∧ p.is_self_type = true) →
       (¬ ∃ (p : HirPath) (lt : Option String) (m : Mutability),
          param = TypeRef.Reference (TypeRef.Path p) lt m ∧ p.is_self_type = true) →
       selfParamFmt ctx data = some ("self: " ++ ctx.fmtTy param)) := by
  have hh : data.params.head? = some param := by
    rw [h]
    rfl
  refine ⟨?_, ?_, ?_⟩
  · rintro p rfl hp
    simp [selfParamFmt, hh, hp]
  · rintro p lt m rfl hp
    simp [selfParamFmt, hh, hp]
  · intro h1 h2
    cases param with
    | Path p =>
      have hp : p.is_self_type = false := by
        cases hsp : p.is_self_type
        · rfl
        · exact absurd ⟨p, rfl, hsp⟩ h1
      simp [selfParamFmt, hh, hp]
    | Reference inner lt m =>
      cases inner with
      | Path p =>
        have hp : p.is_self_type = false := by
          cases hsp : p.is_self_type
          · rfl
          · exact absurd ⟨p, lt, m, rfl, hsp⟩ h2
        simp [selfParamFmt, hh, hp]
      | Reference i2 l2 m2 => simp [selfParamFmt, hh]
      | Tuple ts => simp [selfParamFmt, hh]
      | ImplTrait bs => simp [selfParamFmt, hh]
      | Other s => simp [selfParamFmt, hh]
    | Tuple ts => simp [selfParamFmt, hh]
    | ImplTrait bs => simp [selfParamFmt, hh]
    | Other s => simp [selfParamFmt, hh]

/-- Witness for C6: `fn take(self)` — a first parameter that is the `Self`
path — renders as `self`. -/
theorem self_param_forms_witness :
    selfParamFmt simpleCtx byValueSelfFnData = some "self" :=
  (self_param_forms simpleCtx byValueSelfFnData
      (.Path (.mk [.mk "Self" none])) [] rfl).1 (.mk [.mk "Self" none]) rfl rfl

/-- C7: whenever the function renderer produces output, that output starts
with the visibility followed by exactly the set qualifiers, each as its
keyword plus one space, in the fixed order `default`, `const`, `async`,
`unsafe`, then the optional `extern "ABI" ` token and the literal `fn ` and
the name — independent of which other qualifiers are set. -/
theorem fn_qualifier_order (ctx : Ctx) (fn : FunctionRec)
    (h : (Function.hir_fmt ctx fn).isSome = true) :
    ∃ tail, Function.hir_fmt ctx fn = some (fn.visibility
      ++ (if fn.data.has_default_kw then "default " else "")
      ++ (if fn.data.has_const_kw then "const " else "")
      ++ (if fn.data.has_async_kw then "async " else "")
      ++ (if fn.is_unsafe_to_call then "unsafe " else "")
      ++ (match fn.data.abi with
          | some abi => "extern \"" ++ abi ++ "\" "
          | none => "")
      ++ "fn " ++ fn.data.name ++ tail) := by
  cases hsp : (if fn.has_self_param then selfParamFmt ctx fn.data else some "") with
  | none =>
    rw [Function.hir_fmt, hsp] at h
    simp at h
  | some selfStr =>
    cases hret : effectiveRetType fn.data with
    | none =>
      rw [Function.hir_fmt, hsp] at h
      simp [hret] at h
    | some ret =>
      refine ⟨write_generic_params ctx fn.generic_params ++ "(" ++ selfStr
        ++ renderParams ctx ((fn.data.params.zip fn.param_locals).drop
             (if fn.has_self_param then 1 else 0)) (!fn.has_self_param)
        ++ (if fn.data.is_varargs then ", ..." else "") ++ ")"
        ++ retSuffix ctx ret ++ write_where_clause ctx fn.generic_params, ?_⟩
      rw [Function.hir_fmt, hsp]
      simp [hret, fnHeader, sapp_assoc]

/-- Witness for C7 at a function with all four qualifiers and an ABI. -/
theorem fn_qualifier_order_witness :
    ∃ tail, Function.hir_fmt simpleCtx qualifiedFnRec = some (qualifiedFnRec.visibility
      ++ (if qualifiedFnRec.data.has_default_kw then "default " else "")
      ++ (if qualifiedFnRec.data.has_const_kw then "const " else "")
      ++ (if qualifiedFnRec.data.has_async_kw then "async " else "")
      ++ (if qualifiedFnRec.is_unsafe_to_call then "unsafe " else "")
      ++ (match qualifiedFnRec.data.abi with
          | some abi => "extern \"" ++ abi ++ "\" "
          | none => "")
      ++ "fn " ++ qualifiedFnRec.data.name ++ tail) :=
  fn_qualifier_order simpleCtx qualifiedFnRec (by decide)

/-- Counterexample to C8: a union with zero fields renders no body at all —
`pub union U`, not the record-struct empty body `pub union U {}` the claim
predicts. -/
theorem union_empty_body_cex :
    Union.hir_fmt simpleCtx emptyFieldUnion = "pub union U"
    ∧ Union.hir_fmt simpleCtx emptyFieldUnion ≠ "pub union U {}" := by
  constructor
  · decide
  · decide

/-- C8 (amended): a union with at least one field renders its body exactly
like a record struct's field block (` {\n`, one `    FIELD,\n` line per
field with visibility + name + `: ` + type and a trailing comma on every
field, then `}`); but a union with zero fields emits no body at all, unlike
a zero-field record struct which renders ` {}`. -/
theorem union_body_rendering (ctx : Ctx) (vis nm : String)
    (gps : GenericParams) (fields : List FieldRec) :
    (Union.hir_fmt ctx ⟨vis, nm, gps, []⟩
      = vis ++ "union " ++ nm ++ write_generic_params ctx gps
          ++ write_where_clause ctx gps)
    ∧ (fields ≠ [] →
        Union.hir_fmt ctx ⟨vis, nm, gps, fields⟩
          = vis ++ "union " ++ nm ++ write_generic_params ctx gps
              ++ write_where_clause ctx gps ++ recordFieldBlock ctx fields
        ∧ Struct.hir_fmt ctx ⟨vis, nm, gps, .Record, fields⟩
          = vis ++ "struct " ++ nm ++ write_generic_params ctx gps
              ++ write_where_clause ctx gps ++ recordFieldBlock ctx fields)
    ∧ recordFieldBlock ctx fields
      = " \x7b\n" ++ String.join (fields.map fun field =>
          "    " ++ (field.visibility ++ field.name ++ ": " ++ ctx.fmtTy field.ty)
            ++ ",\n") ++ "\x7d"
    ∧ Struct.hir_fmt ctx ⟨vis, nm, gps, .Record, []⟩
      = vis ++ "struct " ++ nm ++ write_generic_params ctx gps
          ++ write_where_clause ctx gps ++ " {}" := by
  refine ⟨?_, ?_, rfl, ?_⟩
  · simp [Union.hir_fmt, sapp_nilr]
  · intro hne
    cases fields with
    | nil => exact absurd rfl hne
    | cons f fs => exact ⟨rfl, by simp [Struct.hir_fmt, sapp_nilr]⟩
  · simp [Struct.hir_fmt, sapp_nilr]

/-- Witness for the amended C8 at a union with one field `x: i32`. -/
theorem union_body_rendering_witness :
    Union.hir_fmt simpleCtx oneFieldUnion
      = "pub " ++ "union " ++ "U" ++ write_generic_params simpleCtx emptyGenericParams
          ++ write_where_clause simpleCtx emptyGenericParams
          ++ recordFieldBlock simpleCtx [{ visibility := "", name := "x", ty := .Other "i32" }] :=
  ((union_body_rendering simpleCtx "pub " "U" emptyGenericParams
      [{ visibility := "", name := "x", ty := .Other "i32" }]).2.1 (by simp)).1

/-- C9: every renderer is a deterministic pure function of the declaration
metadata and the formatting context, with no state persisting across calls:
two renderings of equal inputs produce byte-identical output. -/
theorem render_deterministic :
    (∀ (ctx : Ctx) (fn fn2 : FunctionRec), fn = fn2 →
      Function.hir_fmt ctx fn = Function.hir_fmt ctx fn2)
    ∧ (∀ (ctx : Ctx) (s s2 : StructRec), s = s2 →
      Struct.hir_fmt ctx s = Struct.hir_fmt ctx s2)
    ∧ (∀ (ctx : Ctx) (u u2 : UnionRec), u = u2 →
      Union.hir_fmt ctx u = Union.hir_fmt ctx u2)
    ∧ (∀ (ctx : Ctx) (field field2 : FieldRec), field = field2 →
      Field.hir_fmt ctx field = Field.hir_fmt ctx field2)
    ∧ (∀ d d2 : ExternCrateDeclRec, d = d2 →
      ExternCrateDecl.hir_fmt d = ExternCrateDecl.hir_fmt d2)
    ∧ (∀ (ctx : Ctx) (ps ps2 : GenericParams), ps = ps2 →
      write_generic_params ctx ps = write_generic_params ctx ps2
      ∧ write_where_clause ctx ps = write_where_clause ctx ps2) := by
  refine ⟨?_, ?_, ?_, ?_, ?_, ?_⟩
  · intro ctx fn fn2 h
    rw [h]
  · intro ctx s s2 h
    rw [h]
  · intro ctx u u2 h
    rw [h]
  · intro ctx field field2 h
    rw [h]
  · intro d d2 h
    rw [h]
  · intro ctx ps ps2 h
    rw [h]
    exact ⟨rfl, rfl⟩

/-- Witness for C9: rendering the same function declaration twice yields the
same output. -/
theorem render_deterministic_witness :
    Function.hir_fmt simpleCtx qualifiedFnRec = Function.hir_fmt simpleCtx qualifiedFnRec :=
  render_deterministic.1 simpleCtx qualifiedFnRec qualifiedFnRec rfl

/-- C10: the extern-crate renderer emits visibility, then `extern crate `
and the crate name; when the crate is imported under an alias it appends
` as ` and the alias, and when there is no alias nothing follows the name. -/
theorem extern_crate_rendering (d : ExternCrateDeclRec) :
    (∀ al, d.alias_ = some al →
      ExternCrateDecl.hir_fmt d
        = d.visibility ++ "extern crate " ++ d.name ++ " as " ++ al.display)
    ∧ (d.alias_ = none →
      ExternCrateDecl.hir_fmt d = d.visibility ++ "extern crate " ++ d.name) := by
  constructor
  · intro al h
    simp [ExternCrateDecl.hir_fmt, h, ← sapp_assoc]
  · intro h
    simp [ExternCrateDecl.hir_fmt, h, sapp_nilr]

/-- Witness for C10 at `extern crate foo as bar`. -/
theorem extern_crate_rendering_witness :
    ExternCrateDecl.hir_fmt externCrateExample
      = externCrateExample.visibility ++ "extern crate " ++ externCrateExample.name
          ++ " as " ++ (ImportAlias.Alias "bar").display :=
  (extern_crate_rendering externCrateExample).1 (.Alias "bar") rfl

end HirDisplay
